import Mathlib

/-!
Verification of the ALIGNIFYC core against its specification.

This file shallowly embeds the two algorithmic subsystems of the repository,
the incremental strip stitcher (`src/stitching/strip_stitcher.cpp`) and the
tiled warp engine (`src/gpu_warp/cuda_warper.cpp`), and proves or refutes the
specification's claims about them.

Modelling conventions: C++ `int` values become `Int`; image dimensions and
pixel indices become `Nat`; `float`/`double` arithmetic becomes exact `Rat`
arithmetic (the standard idealisation for a shallow embedding);
`uint8_t` samples become `Nat` values, bounded by 255 where a claim needs it.
External collaborators (OpenCV's correlation routines, CUDA device queries)
are not part of the repository; their results enter the model as oracle
inputs, exactly where the source consumes their return values.
-/

namespace Alinify

/-- `StatusCode` from `include/alinify/common/types.h`. -/
inductive StatusCode where
  | SUCCESS
  | ERROR_CAMERA_INIT
  | ERROR_CAMERA_START
  | ERROR_BUFFER_OVERFLOW
  | ERROR_STITCHING_FAILED
  | ERROR_REGISTRATION_FAILED
  | ERROR_GPU_OUT_OF_MEMORY
  | ERROR_PRINTER_COMMUNICATION
  | ERROR_INVALID_CONFIG
  | ERROR_FILE_IO
  | ERROR_UNKNOWN
deriving DecidableEq, Repr

/-- `Image<byte_t>` from `include/alinify/common/types.h`, specialised to the
single-channel layout the stitching path uses (`phaseCorrelation` and
`templateMatching` view strips as `CV_8UC1`, and the row `memcpy` in
`addStrip` copies `width` bytes per row, i.e. one channel).  `pix x y` is the
byte at column `x`, row `y`; values outside `width × height` are junk carried
by the backing function and never relied upon. -/
structure Image where
  width : Nat
  height : Nat
  pix : Nat → Nat → Nat

/-- `ScanStrip` from `include/alinify/common/types.h`. -/
structure ScanStrip where
  image : Image
  strip_id : Int
  physical_position : Rat
  is_left_to_right : Bool

/-- `StripStitcher::AlignmentStats` from `strip_stitcher.h`. -/
structure AlignmentStats where
  offset_x : Rat
  offset_y : Rat
  correlation : Rat
  success : Bool

/-- The state of a `StripStitcher` object (`strip_stitcher.h`): the
configuration read by `addStrip` (`params_.overlap_pixels`,
`min_correlation_`, `blending_enabled_`) and the mutable members
(`strips_`, `stitched_image_`, `last_alignment_`, `current_height_`,
`initialized_`). -/
structure StripStitcher where
  overlap_pixels : Int
  min_correlation : Rat
  blending_enabled : Bool
  strips : List ScanStrip
  stitched_image : Image
  last_alignment : AlignmentStats
  current_height : Int
  initialized : Bool

/-- Truncation toward zero: the semantics of `static_cast<int>` applied to a
floating-point value, as in `static_cast<int>(align_stats.offset_x)`. -/
def truncInt (q : Rat) : Int := if 0 ≤ q then ⌊q⌋ else ⌈q⌉

/-- Lines 68–77 of `strip_stitcher.cpp`: allocate an image of the same width
with `newHeight` rows (`std::vector::resize` value-initialises the new bytes
to 0) and `memcpy` the old flat buffer into the front of the new one.  With
equal widths the flat copy is exactly a row-preserving copy. -/
def expandImage (img : Image) (newHeight : Nat) : Image :=
  { width := img.width, height := newHeight,
    pix := fun x y => if y < img.height then img.pix x y else 0 }

/-- The per-pixel blend of `StripStitcher::blendOverlapRegion`
(`strip_stitcher.cpp` lines 224–245): ramp weight `alpha = y / blend_height`
while `y < blend_height`, `alpha = 1` beyond the band, and
`static_cast<byte_t>(alpha * source_val + (1.0f - alpha) * target_val)`:
truncation toward zero of a nonnegative value, i.e. `Nat.floor`.  There is no
clamping in the source. -/
def blendPix (blend_height : Int) (y : Nat) (s t : Nat) : Nat :=
  if (y : Int) < blend_height then
    ⌊((y : Rat) / (blend_height : Rat)) * (s : Rat) +
      (1 - (y : Rat) / (blend_height : Rat)) * (t : Rat)⌋₊
  else s

/-- `StripStitcher::blendOverlapRegion` (`strip_stitcher.cpp` lines 213–248).
Source row `y` writes target row `offset_y + y`, source column `x` writes
target column `x + offset_x`; destination positions outside the target are
skipped (`continue`).  The write mapping is injective and each write reads
only the pre-call value at its own position, so the loop nest is the
pointwise update below. -/
def blendOverlapRegion (target source : Image) (offset_x offset_y : Int)
    (blend_height : Int) : Image :=
  { target with pix := fun x y =>
      if 0 ≤ (y : Int) - offset_y ∧ (y : Int) - offset_y < (source.height : Int) ∧
          0 ≤ (x : Int) - offset_x ∧ (x : Int) - offset_x < (source.width : Int) ∧
          x < target.width ∧ y < target.height then
        (blendPix blend_height ((y : Int) - offset_y).toNat
          (source.pix ((x : Int) - offset_x).toNat ((y : Int) - offset_y).toNat)
          (target.pix x y))
      else target.pix x y }

/-- The `!(blending_enabled_ && overlap_pixels > 0)` branch of `addStrip`
(`strip_stitcher.cpp` lines 86–97): row-wise `memcpy` of `source.width` bytes
per strip row into the composite starting at row `insert_y`, skipping
destination rows outside the composite (`dst_y` bound check). -/
def copyStrip (target source : Image) (insert_y : Int) : Image :=
  { target with pix := fun x y =>
      if 0 ≤ (y : Int) - insert_y ∧ (y : Int) - insert_y < (source.height : Int) ∧
          x < source.width ∧ y < target.height then
        source.pix x ((y : Int) - insert_y).toNat
      else target.pix x y }

/-- `StripStitcher::addStrip` (`strip_stitcher.cpp` lines 31–104).  `align`
is the value `alignStrips(strips_.back().image, strip.image)` returns for
this call; that value is produced by OpenCV (`cv::phaseCorrelate`,
`cv::matchTemplate`) — external library code — so it enters the model as an
oracle input at exactly the point the source consumes it.  Returns the status
code together with the updated object state. -/
def addStrip (st : StripStitcher) (strip : ScanStrip) (align : AlignmentStats) :
    StatusCode × StripStitcher :=
  if !st.initialized then (StatusCode.ERROR_INVALID_CONFIG, st)
  else if st.strips.isEmpty then
    (StatusCode.SUCCESS,
      { st with stitched_image := strip.image,
                current_height := (strip.image.height : Int),
                strips := [strip] })
  else
    let st1 := { st with last_alignment := align }
    if !align.success then (StatusCode.ERROR_STITCHING_FAILED, st1)
    else
      let new_height : Int :=
        st.current_height + (strip.image.height : Int) - st.overlap_pixels
      let base :=
        if (st.stitched_image.height : Int) < new_height then
          expandImage st.stitched_image new_height.toNat
        else st.stitched_image
      let insert_y : Int := st.current_height - st.overlap_pixels
      let fused :=
        if st.blending_enabled ∧ 0 < st.overlap_pixels then
          blendOverlapRegion base strip.image (truncInt align.offset_x) insert_y
            st.overlap_pixels
        else copyStrip base strip.image insert_y
      (StatusCode.SUCCESS,
        { st1 with stitched_image := fused,
                   current_height := new_height,
                   strips := st.strips ++ [strip] })

/-- `StripStitcher::reset` (`strip_stitcher.cpp` lines 110–115). -/
def resetStitcher (st : StripStitcher) : StripStitcher :=
  { st with strips := [],
            stitched_image := { width := 0, height := 0, pix := fun _ _ => 0 },
            current_height := 0,
            last_alignment := { offset_x := 0, offset_y := 0, correlation := 0,
                                success := false } }

/-! ## Warp engine (`src/gpu_warp/cuda_warper.cpp`) -/

/-- `Image<byte_t>` as consumed by `CudaWarper`: the general multi-channel
layout of `types.h`.  `pix x y c` is the byte `at(x, y, c)`. -/
structure WImage where
  width : Nat
  height : Nat
  channels : Nat
  pix : Nat → Nat → Nat → Nat

/-- `DeformationField` from `types.h`: two dense same-sized grids of floating
displacement.  `dx x y` / `dy x y` is `getDisplacement(x, y, ...)`. -/
structure DeformationField where
  width : Nat
  height : Nat
  dx : Nat → Nat → Rat
  dy : Nat → Nat → Rat

/-- A `[C, H, W]` float tensor, as produced by `imageToTensor`.
`val c y x` is `accessor[c][y][x]`. -/
structure Tensor3 where
  channels : Nat
  height : Nat
  width : Nat
  val : Nat → Nat → Nat → Rat

/-- A `[H, W, 2]` deformation tensor, as produced by `deformationToTensor`.
`dxv y x` is `accessor[y][x][0]`, `dyv y x` is `accessor[y][x][1]`. -/
structure DefTensor where
  height : Nat
  width : Nat
  dxv : Nat → Nat → Rat
  dyv : Nat → Nat → Rat

/-- A `[H, W, 2]` sampling grid in normalized coordinates, as produced by
`createSamplingGrid`.  `gx y x` is the x (last-dimension index 0) component. -/
structure SamplingGrid where
  height : Nat
  width : Nat
  gx : Nat → Nat → Rat
  gy : Nat → Nat → Rat

/-- `GPUConfig` from `types.h` (the fields `generateTiles` and the tiled path
read). -/
structure GPUConfig where
  device_id : Int
  max_vram_bytes : Nat
  tile_width : Int
  tile_height : Int
  tile_overlap : Int
  batch_size : Int

/-- `CudaWarper::Tile` from `cuda_warper.h`. -/
structure Tile where
  x : Int
  y : Int
  width : Int
  height : Int
  overlap : Int
deriving DecidableEq, Repr

/-- `CudaWarper::imageToTensor` (`cuda_warper.cpp` lines 240–256):
`accessor[c][y][x] = image.at(x, y, c) / 255.0f`. -/
def imageToTensor (image : WImage) : Tensor3 :=
  { channels := image.channels, height := image.height, width := image.width,
    val := fun c y x => (image.pix x y c : Rat) / 255 }

/-- `CudaWarper::deformationToTensor` (`cuda_warper.cpp` lines 279–296). -/
def deformationToTensor (field : DeformationField) : DefTensor :=
  { height := field.height, width := field.width,
    dxv := fun y x => field.dx x y,
    dyv := fun y x => field.dy x y }

/-- `torch::linspace(-1, 1, n)` evaluated at index `i`: `-1 + 2*i/(n-1)`,
and `[-1]` when `n = 1` (torch returns the start value for a single step). -/
def linspace (n : Nat) (i : Nat) : Rat :=
  if n ≤ 1 then -1 else -1 + 2 * (i : Rat) / ((n : Rat) - 1)

/-- `CudaWarper::createSamplingGrid` (`cuda_warper.cpp` lines 298–325): base
grid `meshgrid(linspace(-1,1,height), linspace(-1,1,width))` plus the
deformation normalized by `width / 2.0` (x) and `height / 2.0` (y). -/
def createSamplingGrid (height width : Nat) (d : DefTensor) : SamplingGrid :=
  { height := height, width := width,
    gx := fun y x => linspace width x + d.dxv y x / ((width : Rat) / 2),
    gy := fun y x => linspace height y + d.dyv y x / ((height : Rat) / 2) }

/-- Unnormalization of a grid coordinate by `torch::grid_sampler`:
`(coord + 1) / 2 * (size - 1)` with `align_corners=true`,
`((coord + 1) * size - 1) / 2` with `align_corners=false`. -/
def unnormalize (align_corners : Bool) (size : Nat) (coord : Rat) : Rat :=
  if align_corners then (coord + 1) / 2 * ((size : Rat) - 1)
  else ((coord + 1) * (size : Rat) - 1) / 2

/-- Zero-padded tensor lookup (`padding_mode = zeros` of `grid_sampler`):
out-of-bounds source coordinates read the fixed border value 0. -/
def padGet (t : Tensor3) (c : Nat) (iy ix : Int) : Rat :=
  if 0 ≤ ix ∧ ix < (t.width : Int) ∧ 0 ≤ iy ∧ iy < (t.height : Int) then
    t.val c iy.toNat ix.toNat
  else 0

/-- Round half to even on rationals: the semantics of `std::nearbyint` in the
default rounding mode, used by `grid_sampler`'s nearest interpolation. -/
def roundHalfEven (q : Rat) : Int :=
  if q - ⌊q⌋ < 1 / 2 then ⌊q⌋
  else if 1 / 2 < q - ⌊q⌋ then ⌊q⌋ + 1
  else if 2 ∣ ⌊q⌋ then ⌊q⌋ else ⌊q⌋ + 1

/-- Bilinear interpolation of `grid_sampler` at unnormalized source
coordinates `(ix, iy)`: the four neighbours weighted by the fractional
parts, each read with zero padding. -/
def bilinearSample (t : Tensor3) (c : Nat) (ix iy : Rat) : Rat :=
  (1 - (ix - ⌊ix⌋)) * (1 - (iy - ⌊iy⌋)) * padGet t c ⌊iy⌋ ⌊ix⌋ +
    (ix - ⌊ix⌋) * (1 - (iy - ⌊iy⌋)) * padGet t c ⌊iy⌋ (⌊ix⌋ + 1) +
    (1 - (ix - ⌊ix⌋)) * (iy - ⌊iy⌋) * padGet t c (⌊iy⌋ + 1) ⌊ix⌋ +
    (ix - ⌊ix⌋) * (iy - ⌊iy⌋) * padGet t c (⌊iy⌋ + 1) (⌊ix⌋ + 1)

/-- Nearest interpolation of `grid_sampler`: `std::nearbyint` of each
unnormalized coordinate, read with zero padding. -/
def nearestSample (t : Tensor3) (c : Nat) (ix iy : Rat) : Rat :=
  padGet t c (roundHalfEven iy) (roundHalfEven ix)

/-- Interpolation mode argument of `torch::grid_sampler`.  In libtorch the
enum `GridSamplerInterpolation` runs `{Bilinear = 0, Nearest = 1}` — mode 0
is bilinear and mode 1 is nearest.  (The comments in `cuda_warper.cpp` label
the literals the other way around; the library convention is authoritative
for what the program computes.) -/
inductive InterpMode where
  | nearest
  | bilinear
deriving DecidableEq, Repr

/-- `torch::grid_sampler(input, grid, mode, zeros-padding, align_corners)`
on a `[C, H_in, W_in]` input and `[H_g, W_g, 2]` grid: a `[C, H_g, W_g]`
output whose entry at `(c, y, x)` resamples the input at the unnormalized
grid coordinate. -/
def gridSampler (input : Tensor3) (grid : SamplingGrid) (mode : InterpMode)
    (align_corners : Bool) : Tensor3 :=
  { channels := input.channels, height := grid.height, width := grid.width,
    val := fun c y x =>
      match mode with
      | InterpMode.nearest =>
          (nearestSample input c (unnormalize align_corners input.width (grid.gx y x))
            (unnormalize align_corners input.height (grid.gy y x)))
      | InterpMode.bilinear =>
          (bilinearSample input c (unnormalize align_corners input.width (grid.gx y x))
            (unnormalize align_corners input.height (grid.gy y x))) }

/-- `static_cast<byte_t>(std::clamp(val * 255.0f, 0.0f, 255.0f))` applied to
an already-multiplied value: clamp to `[0, 255]`, then truncate toward zero
(`Nat.floor` of a nonnegative rational). -/
def clampByte (q : Rat) : Nat := ⌊max 0 (min q 255)⌋₊

/-- `CudaWarper::tensorToImage` (`cuda_warper.cpp` lines 258–277). -/
def tensorToImage (t : Tensor3) : WImage :=
  { width := t.width, height := t.height, channels := t.channels,
    pix := fun x y c => clampByte (t.val c y x * 255) }

/-- The direct (non-tiled) path of `CudaWarper::warpImage`
(`cuda_warper.cpp` lines 64–104), taken when the free-memory check decides
the image fits; the check itself queries CUDA (external) and does not change
the computation.  `mode` is the `interpolation_mode_` string.  The
`"nearest"` branch passes `grid_sampler` the literal `0` with
`align_corners=false`; in libtorch mode 0 is **bilinear**, so this branch
actually resamples bilinearly.  Any other mode passes the literal `1` with
`align_corners=true`; libtorch mode 1 is **nearest**, so the default
`"bilinear"` configuration actually resamples nearest-neighbour. -/
def warpImageDirect (input : WImage) (deformation : DeformationField)
    (mode : String) : WImage :=
  let it := imageToTensor input
  let dt := deformationToTensor deformation
  let grid := createSamplingGrid input.height input.width dt
  let ot :=
    if mode = "nearest" then gridSampler it grid InterpMode.bilinear false
    else gridSampler it grid InterpMode.nearest true
  tensorToImage ot

/-- The value of the loop counter of a `for (v = 0; v < bound; v += step)`
loop after `n` increments. -/
def loopIter (step : Int) (n : Nat) : Int := (n : Int) * step

/-- Termination of a `for (v = 0; v < bound; v += step)` loop: some number of
increments falsifies the guard. -/
def loopTerminates (step bound : Int) : Prop := ∃ n : Nat, ¬ loopIter step n < bound

/-- Termination of `CudaWarper::generateTiles` (`cuda_warper.cpp` lines
224–235) on a `width × height` image: the outer loop steps `y` by
`tile_height - tile_overlap` against `height`, and (whenever the outer body
runs, which it does for `height > 0`) the inner loop steps `x` by
`tile_width - tile_overlap` against `width`; the call terminates exactly when
both loops do. -/
def generateTilesTerminates (width height : Int) (cfg : GPUConfig) : Prop :=
  loopTerminates (cfg.tile_height - cfg.tile_overlap) height ∧
    loopTerminates (cfg.tile_width - cfg.tile_overlap) width

/-- The start offsets `0, step, 2*step, ...` strictly below `bound` produced
by one axis of the `generateTiles` loop nest, for a positive step:
`⌈bound / step⌉` of them. -/
def axisStarts (step bound : Nat) : List Nat :=
  (List.range ((bound + step - 1) / step)).map (fun n => n * step)

/-- The tile list `CudaWarper::generateTiles(width, height)` returns when
both loop steps are positive (otherwise the loop nest does not terminate; see
`generateTilesTerminates`).  Row-major: for each `y` start, each `x` start,
a tile `min(tile_w, width - x) × min(tile_h, height - y)` at `(x, y)`.  The
loop counters are `int`s that take exactly these nonnegative values. -/
def generateTilesPos (width height : Nat) (cfg : GPUConfig) : List Tile :=
  ((axisStarts (cfg.tile_height - cfg.tile_overlap).toNat height).flatMap
    (fun (y : Nat) =>
      (axisStarts (cfg.tile_width - cfg.tile_overlap).toNat width).map
      (fun (x : Nat) =>
        { x := (x : Int), y := (y : Int),
          width := min cfg.tile_width ((width : Int) - (x : Int)),
          height := min cfg.tile_height ((height : Int) - (y : Int)),
          overlap := cfg.tile_overlap })))

/-- `input_tensor.index({Slice(), Slice(y, y+h), Slice(x, x+w)})`:
the `[C, h, w]` window of a `[C, H, W]` tensor. -/
def sliceTensor (t : Tensor3) (x y w h : Int) : Tensor3 :=
  { channels := t.channels, height := h.toNat, width := w.toNat,
    val := fun c yy xx => t.val c (y.toNat + yy) (x.toNat + xx) }

/-- `deformation_tensor.index({Slice(y, y+h), Slice(x, x+w), Slice()})`. -/
def sliceDef (d : DefTensor) (x y w h : Int) : DefTensor :=
  { height := h.toNat, width := w.toNat,
    dxv := fun yy xx => d.dxv (y.toNat + yy) (x.toNat + xx),
    dyv := fun yy xx => d.dyv (y.toNat + yy) (x.toNat + xx) }

/-- The copy-back loop nest of `warpImageTiled` (`cuda_warper.cpp` lines
164–177): for `c < channels`, `y < tile.height`, `x < tile.width`, write
`clamp(val * 255)` at `(tile.x + x, tile.y + y, c)` when inside the output
image.  The whole tile extent is written — the code has no core/halo split. -/
def writeTile (channels : Nat) (out : WImage) (tile : Tile) (tvals : Tensor3) :
    WImage :=
  { out with pix := fun x y c =>
      if tile.x ≤ (x : Int) ∧ (x : Int) < tile.x + tile.width ∧
          tile.y ≤ (y : Int) ∧ (y : Int) < tile.y + tile.height ∧
          x < out.width ∧ y < out.height ∧ c < channels then
        clampByte (tvals.val c ((y : Int) - tile.y).toNat ((x : Int) - tile.x).toNat * 255)
      else out.pix x y c }

/-- One iteration of the tile loop of `warpImageTiled` (`cuda_warper.cpp`
lines 128–178): slice the input and deformation tensors to the tile, build a
sampling grid over the tile's own dimensions, resample with
`grid_sampler(..., 1, 0, true)` — libtorch mode 1 is **nearest**, so this is
nearest-neighbour with zero padding and `align_corners=true`, regardless of
`interpolation_mode_` — and copy the full tile back into the output. -/
def warpTileStep (it : Tensor3) (dt : DefTensor) (channels : Nat)
    (out : WImage) (tile : Tile) : WImage :=
  let ti := sliceTensor it tile.x tile.y tile.width tile.height
  let td := sliceDef dt tile.x tile.y tile.width tile.height
  let tg := createSamplingGrid tile.height.toNat tile.width.toNat td
  let tout := gridSampler ti tg InterpMode.nearest true
  writeTile channels out tile tout

/-- `CudaWarper::warpImageTiled` (`cuda_warper.cpp` lines 111–187), for a
configuration whose tile loops terminate (`generateTilesPos`).  The output is
zero-initialised (the `Image` constructor value-initialises its vector), and
the tiles are processed in order by `warpTileStep`. -/
def warpImageTiled (input : WImage) (deformation : DeformationField)
    (cfg : GPUConfig) : WImage :=
  (generateTilesPos input.width input.height cfg).foldl
    (warpTileStep (imageToTensor input) (deformationToTensor deformation)
      input.channels)
    { width := input.width, height := input.height, channels := input.channels,
      pix := fun _ _ _ => 0 }

/-- The all-zero displacement field of a given size. -/
def zeroField (width height : Nat) : DeformationField :=
  { width := width, height := height, dx := fun _ _ => 0, dy := fun _ _ => 0 }

/-! ## The end-to-end stitching scenario of spec §8 -/

/-- A 100×50 strip image with (uniform gradient) content. -/
def gradImage : Image :=
  { width := 100, height := 50, pix := fun x y => (x + 2 * y) % 256 }

/-- The `i`-th scenario strip. -/
def gradStrip (i : Nat) : ScanStrip :=
  { image := gradImage, strip_id := (i : Int), physical_position := 0,
    is_left_to_right := true }

/-- A successful alignment oracle result (zero offset, full correlation), the
value the spec scenario expects the estimator to report for the gradient
strips. -/
def okAlign : AlignmentStats :=
  { offset_x := 0, offset_y := 0, correlation := 1, success := true }

/-- A freshly initialized stitcher with `overlap_pixels = 10` and the
scenario's confidence threshold 0.5. -/
def stitcherStart : StripStitcher :=
  { overlap_pixels := 10, min_correlation := 1 / 2, blending_enabled := true,
    strips := [], stitched_image := { width := 0, height := 0, pix := fun _ _ => 0 },
    last_alignment := { offset_x := 0, offset_y := 0, correlation := 0,
                        success := false },
    current_height := 0, initialized := true }

/-- The stitcher state after feeding the five scenario strips, each alignment
succeeding. -/
def fiveStrips : StripStitcher :=
  (List.range 5).foldl (fun st i => (addStrip st (gradStrip i) okAlign).2)
    stitcherStart

/-! ## Helper lemmas for the stitching claims -/

theorem isEmpty_false_of_ne_nil {α : Type} {l : List α} (h : l ≠ []) :
    l.isEmpty = false := by
  cases hl : l with
  | nil => exact absurd hl h
  | cons a t => rfl

/-- The truncated convex combination `blendPix` stays between its operands
inside the blend band. -/
theorem blendPix_between (bh : Int) (y s t : Nat) (hy : (y : Int) < bh) :
    min s t ≤ blendPix bh y s t ∧ blendPix bh y s t ≤ max s t := by
  have hbh : (0 : Int) < bh := lt_of_le_of_lt (Int.ofNat_nonneg y) hy
  have hb0 : (0 : ℚ) < (bh : ℚ) := by exact_mod_cast hbh
  have hα0 : 0 ≤ (y : ℚ) / (bh : ℚ) := div_nonneg (Nat.cast_nonneg y) hb0.le
  have hα1 : (y : ℚ) / (bh : ℚ) ≤ 1 := by
    rw [div_le_one hb0]
    exact_mod_cast hy.le
  have hs : ((min s t : ℕ) : ℚ) ≤ (s : ℚ) := by exact_mod_cast min_le_left s t
  have ht : ((min s t : ℕ) : ℚ) ≤ (t : ℚ) := by exact_mod_cast min_le_right s t
  have hs' : (s : ℚ) ≤ ((max s t : ℕ) : ℚ) := by exact_mod_cast le_max_left s t
  have ht' : (t : ℚ) ≤ ((max s t : ℕ) : ℚ) := by exact_mod_cast le_max_right s t
  unfold blendPix
  rw [if_pos hy]
  constructor
  · apply Nat.le_floor
    nlinarith
  · have h2 : (y : ℚ) / (bh : ℚ) * (s : ℚ) + (1 - (y : ℚ) / (bh : ℚ)) * (t : ℚ)
        ≤ ((max s t : ℕ) : ℚ) := by nlinarith
    calc ⌊(y : ℚ) / (bh : ℚ) * (s : ℚ) + (1 - (y : ℚ) / (bh : ℚ)) * (t : ℚ)⌋₊
        ≤ ⌊((max s t : ℕ) : ℚ)⌋₊ := Nat.floor_le_floor h2
      _ = max s t := Nat.floor_natCast _

/-! ## Stitching claims -/

/-- C1: in the accumulating state, a successful `addStrip` grows the
composite height (both the `current_height_` member and the buffer height) to
exactly `current_height + strip.height - overlap_pixels`; the copy-extend
step (`expandImage`) preserves all previously written content at its old
position and the buffer width; and the spec's five-strip scenario
(5 strips of 100×50, `overlap_pixels = 10`, all alignments succeeding) ends
at composite height 210 and width 100. -/
theorem C1_addStrip_growth (st : StripStitcher) (strip : ScanStrip)
    (align : AlignmentStats)
    (hinit : st.initialized = true) (hne : st.strips ≠ [])
    (hsucc : align.success = true)
    (hinv : (st.stitched_image.height : Int) = st.current_height)
    (hov : st.overlap_pixels ≤ (strip.image.height : Int)) :
    (addStrip st strip align).1 = StatusCode.SUCCESS
      ∧ (addStrip st strip align).2.current_height
          = st.current_height + (strip.image.height : Int) - st.overlap_pixels
      ∧ ((addStrip st strip align).2.stitched_image.height : Int)
          = st.current_height + (strip.image.height : Int) - st.overlap_pixels
      ∧ (∀ (img : Image) (nh x y : Nat), y < img.height →
          (expandImage img nh).pix x y = img.pix x y
            ∧ (expandImage img nh).width = img.width)
      ∧ fiveStrips.current_height = 210
      ∧ fiveStrips.stitched_image.height = 210
      ∧ fiveStrips.stitched_image.width = 100 := by
  have hne' : st.strips.isEmpty = false := isEmpty_false_of_ne_nil hne
  have hnh : st.current_height
      ≤ st.current_height + (strip.image.height : Int) - st.overlap_pixels := by
    omega
  simp only [addStrip, hinit, hne', hsucc, Bool.not_true, Bool.false_eq_true,
    if_false, Bool.not_false, if_true]
  refine ⟨by trivial, by trivial, ?_, ?_, by decide, by decide, by decide⟩
  · by_cases hexp : (st.stitched_image.height : Int)
        < st.current_height + (strip.image.height : Int) - st.overlap_pixels
    · rw [if_pos hexp]
      have hbase : ∀ (b : Bool), (if b ∧ 0 < st.overlap_pixels then
          blendOverlapRegion
            (expandImage st.stitched_image
              (st.current_height + (strip.image.height : Int) - st.overlap_pixels).toNat)
            strip.image (truncInt align.offset_x)
            (st.current_height - st.overlap_pixels) st.overlap_pixels
        else copyStrip
            (expandImage st.stitched_image
              (st.current_height + (strip.image.height : Int) - st.overlap_pixels).toNat)
            strip.image (st.current_height - st.overlap_pixels)).height
          = (st.current_height + (strip.image.height : Int) - st.overlap_pixels).toNat := by
        intro b
        by_cases hb : b ∧ 0 < st.overlap_pixels
        · rw [if_pos hb]; rfl
        · rw [if_neg hb]; rfl
      rw [hbase]
      omega
    · rw [if_neg hexp]
      have heq : (st.stitched_image.height : Int)
          = st.current_height + (strip.image.height : Int) - st.overlap_pixels := by
        omega
      by_cases hb : st.blending_enabled ∧ 0 < st.overlap_pixels
      · rw [if_pos hb]; exact heq
      · rw [if_neg hb]; exact heq
  · intro img nh x y hy
    exact ⟨by simp [expandImage, hy], rfl⟩

/-- C1 witness: a concrete accumulating stitcher (overlap 1, one 2×2 strip
already seeded) and a successful alignment. -/
theorem C1_addStrip_growth_witness :
    (addStrip
        { overlap_pixels := 1, min_correlation := 7 / 10, blending_enabled := true,
          strips := [gradStrip 0],
          stitched_image := { width := 2, height := 2, pix := fun x y => x + y },
          last_alignment := okAlign, current_height := 2, initialized := true }
        { image := { width := 2, height := 2, pix := fun x y => x * y },
          strip_id := 1, physical_position := 0, is_left_to_right := true }
        okAlign).1 = StatusCode.SUCCESS
      ∧ (addStrip
        { overlap_pixels := 1, min_correlation := 7 / 10, blending_enabled := true,
          strips := [gradStrip 0],
          stitched_image := { width := 2, height := 2, pix := fun x y => x + y },
          last_alignment := okAlign, current_height := 2, initialized := true }
        { image := { width := 2, height := 2, pix := fun x y => x * y },
          strip_id := 1, physical_position := 0, is_left_to_right := true }
        okAlign).2.current_height = 2 + (2 : Int) - 1
      ∧ ((addStrip
        { overlap_pixels := 1, min_correlation := 7 / 10, blending_enabled := true,
          strips := [gradStrip 0],
          stitched_image := { width := 2, height := 2, pix := fun x y => x + y },
          last_alignment := okAlign, current_height := 2, initialized := true }
        { image := { width := 2, height := 2, pix := fun x y => x * y },
          strip_id := 1, physical_position := 0, is_left_to_right := true }
        okAlign).2.stitched_image.height : Int) = 2 + (2 : Int) - 1
      ∧ (∀ (img : Image) (nh x y : Nat), y < img.height →
          (expandImage img nh).pix x y = img.pix x y
            ∧ (expandImage img nh).width = img.width)
      ∧ fiveStrips.current_height = 210
      ∧ fiveStrips.stitched_image.height = 210
      ∧ fiveStrips.stitched_image.width = 100 := by
  have h := C1_addStrip_growth
    { overlap_pixels := 1, min_correlation := 7 / 10, blending_enabled := true,
      strips := [gradStrip 0],
      stitched_image := { width := 2, height := 2, pix := fun x y => x + y },
      last_alignment := okAlign, current_height := 2, initialized := true }
    { image := { width := 2, height := 2, pix := fun x y => x * y },
      strip_id := 1, physical_position := 0, is_left_to_right := true }
    okAlign rfl (List.cons_ne_nil _ _) rfl (by decide) (by decide)
  exact h

/-- C2: in the accumulating state, a failed alignment makes `addStrip` return
the stitching-failed error and leave the composite image, the strip history
and the tracked height exactly as they were. -/
theorem C2_addStrip_failure_noop (st : StripStitcher) (strip : ScanStrip)
    (align : AlignmentStats)
    (hinit : st.initialized = true) (hne : st.strips ≠ [])
    (hfail : align.success = false) :
    (addStrip st strip align).1 = StatusCode.ERROR_STITCHING_FAILED
      ∧ (addStrip st strip align).2.stitched_image = st.stitched_image
      ∧ (addStrip st strip align).2.strips = st.strips
      ∧ (addStrip st strip align).2.current_height = st.current_height := by
  have hne' : st.strips.isEmpty = false := isEmpty_false_of_ne_nil hne
  simp [addStrip, hinit, hne', hfail]

/-- C2 witness: a concrete accumulating stitcher and a failed alignment. -/
theorem C2_addStrip_failure_noop_witness :
    (addStrip
        { overlap_pixels := 10, min_correlation := 7 / 10, blending_enabled := true,
          strips := [gradStrip 0], stitched_image := gradImage,
          last_alignment := okAlign, current_height := 50, initialized := true }
        (gradStrip 1)
        { offset_x := 0, offset_y := 0, correlation := 0, success := false }).1
        = StatusCode.ERROR_STITCHING_FAILED
      ∧ (addStrip
        { overlap_pixels := 10, min_correlation := 7 / 10, blending_enabled := true,
          strips := [gradStrip 0], stitched_image := gradImage,
          last_alignment := okAlign, current_height := 50, initialized := true }
        (gradStrip 1)
        { offset_x := 0, offset_y := 0, correlation := 0, success := false
        }).2.stitched_image = gradImage
      ∧ (addStrip
        { overlap_pixels := 10, min_correlation := 7 / 10, blending_enabled := true,
          strips := [gradStrip 0], stitched_image := gradImage,
          last_alignment := okAlign, current_height := 50, initialized := true }
        (gradStrip 1)
        { offset_x := 0, offset_y := 0, correlation := 0, success := false
        }).2.strips = [gradStrip 0]
      ∧ (addStrip
        { overlap_pixels := 10, min_correlation := 7 / 10, blending_enabled := true,
          strips := [gradStrip 0], stitched_image := gradImage,
          last_alignment := okAlign, current_height := 50, initialized := true }
        (gradStrip 1)
        { offset_x := 0, offset_y := 0, correlation := 0, success := false
        }).2.current_height = 50 := by
  exact C2_addStrip_failure_noop
    { overlap_pixels := 10, min_correlation := 7 / 10, blending_enabled := true,
      strips := [gradStrip 0], stitched_image := gradImage,
      last_alignment := okAlign, current_height := 50, initialized := true }
    (gradStrip 1) _ rfl (List.cons_ne_nil _ _) rfl

/-- C5: with `overlap_pixels = 0` (and a successful alignment, the only case
in which `addStrip` modifies anything), `addStrip` is a pure vertical append:
the height grows by exactly the strip's height, every previously written
pixel keeps its value, and the new rows are the strip's rows — the composite
equals the vertical concatenation pixel for pixel. -/
theorem C5_addStrip_zero_overlap_append (st : StripStitcher)
    (strip : ScanStrip) (align : AlignmentStats)
    (hinit : st.initialized = true) (hne : st.strips ≠ [])
    (hsucc : align.success = true)
    (hov : st.overlap_pixels = 0)
    (hinv : (st.stitched_image.height : Int) = st.current_height) :
    (addStrip st strip align).1 = StatusCode.SUCCESS
      ∧ (addStrip st strip align).2.current_height
          = st.current_height + (strip.image.height : Int)
      ∧ (addStrip st strip align).2.stitched_image.height
          = st.stitched_image.height + strip.image.height
      ∧ (addStrip st strip align).2.stitched_image.width
          = st.stitched_image.width
      ∧ (∀ x y : Nat, y < st.stitched_image.height →
          (addStrip st strip align).2.stitched_image.pix x y
            = st.stitched_image.pix x y)
      ∧ (∀ x y : Nat, x < strip.image.width → y < strip.image.height →
          (addStrip st strip align).2.stitched_image.pix x
              (st.stitched_image.height + y)
            = strip.image.pix x y) := by
  have hne' : st.strips.isEmpty = false := isEmpty_false_of_ne_nil hne
  simp only [addStrip, hinit, hne', hsucc, Bool.not_true, Bool.false_eq_true,
    if_false, Bool.not_false, if_true, hov, sub_zero, lt_self_iff_false,
    and_false]
  refine ⟨by trivial, by trivial, ?_, ?_, ?_, ?_⟩
  · by_cases hexp : (st.stitched_image.height : Int)
        < st.current_height + (strip.image.height : Int)
    · rw [if_pos hexp]
      show (st.current_height + (strip.image.height : Int)).toNat
          = st.stitched_image.height + strip.image.height
      omega
    · rw [if_neg hexp]
      show st.stitched_image.height = st.stitched_image.height + strip.image.height
      omega
  · by_cases hexp : (st.stitched_image.height : Int)
        < st.current_height + (strip.image.height : Int)
    · rw [if_pos hexp]; rfl
    · rw [if_neg hexp]; rfl
  · intro x y hy
    by_cases hexp : (st.stitched_image.height : Int)
        < st.current_height + (strip.image.height : Int)
    · rw [if_pos hexp]
      show (copyStrip (expandImage st.stitched_image _) strip.image
          st.current_height).pix x y = st.stitched_image.pix x y
      have hneg : ¬ (0 ≤ (y : Int) - st.current_height
          ∧ (y : Int) - st.current_height < (strip.image.height : Int)
          ∧ x < strip.image.width
          ∧ y < (expandImage st.stitched_image
              (st.current_height + (strip.image.height : Int)).toNat).height) := by
        intro hcon
        omega
      simp only [copyStrip, if_neg hneg]
      simp [expandImage, hy]
    · rw [if_neg hexp]
      show (copyStrip st.stitched_image strip.image st.current_height).pix x y
          = st.stitched_image.pix x y
      have hneg : ¬ (0 ≤ (y : Int) - st.current_height
          ∧ (y : Int) - st.current_height < (strip.image.height : Int)
          ∧ x < strip.image.width ∧ y < st.stitched_image.height) := by
        intro hcon
        omega
      simp only [copyStrip, if_neg hneg]
  · intro x y hx hy
    have hexp : (st.stitched_image.height : Int)
        < st.current_height + (strip.image.height : Int) := by omega
    rw [if_pos hexp]
    show (copyStrip (expandImage st.stitched_image
        (st.current_height + (strip.image.height : Int)).toNat) strip.image
        st.current_height).pix x (st.stitched_image.height + y)
        = strip.image.pix x y
    have hpos : 0 ≤ ((st.stitched_image.height + y : Nat) : Int) - st.current_height
        ∧ ((st.stitched_image.height + y : Nat) : Int) - st.current_height
            < (strip.image.height : Int)
        ∧ x < strip.image.width
        ∧ st.stitched_image.height + y < (expandImage st.stitched_image
            (st.current_height + (strip.image.height : Int)).toNat).height := by
      refine ⟨by omega, by omega, hx, ?_⟩
      show st.stitched_image.height + y
          < (st.current_height + (strip.image.height : Int)).toNat
      omega
    simp only [copyStrip, if_pos hpos]
    congr 1
    omega

/-- C5 witness: a concrete accumulating stitcher with `overlap_pixels = 0`
and a 2×1 strip appended to a 2×2 composite. -/
theorem C5_addStrip_zero_overlap_append_witness :
    ((addStrip
        { overlap_pixels := 0, min_correlation := 7 / 10, blending_enabled := true,
          strips := [gradStrip 0],
          stitched_image := { width := 2, height := 2, pix := fun x y => x + y },
          last_alignment := okAlign, current_height := 2, initialized := true }
        { image := { width := 2, height := 1, pix := fun x y => 9 + x + y },
          strip_id := 1, physical_position := 0, is_left_to_right := true }
        okAlign).2.current_height = 2 + (1 : Int))
      ∧ (∀ x y : Nat, x < 2 → y < 1 →
          (addStrip
            { overlap_pixels := 0, min_correlation := 7 / 10,
              blending_enabled := true, strips := [gradStrip 0],
              stitched_image := { width := 2, height := 2, pix := fun x y => x + y },
              last_alignment := okAlign, current_height := 2, initialized := true }
            { image := { width := 2, height := 1, pix := fun x y => 9 + x + y },
              strip_id := 1, physical_position := 0, is_left_to_right := true }
            okAlign).2.stitched_image.pix x (2 + y) = 9 + x + y) := by
  have h := C5_addStrip_zero_overlap_append
    { overlap_pixels := 0, min_correlation := 7 / 10, blending_enabled := true,
      strips := [gradStrip 0],
      stitched_image := { width := 2, height := 2, pix := fun x y => x + y },
      last_alignment := okAlign, current_height := 2, initialized := true }
    { image := { width := 2, height := 1, pix := fun x y => 9 + x + y },
      strip_id := 1, physical_position := 0, is_left_to_right := true }
    okAlign rfl (List.cons_ne_nil _ _) rfl rfl (by decide)
  exact ⟨h.2.1, fun x y hx hy => h.2.2.2.2.2 x y hx hy⟩

/-- C9: the composite is append-only along the scan axis: a successful
`addStrip` (after the first strip) leaves every composite pixel in rows
`[0, current_height - overlap_pixels)` — outside the active seam band —
with exactly the value it had before the call. -/
theorem C9_composite_append_only (st : StripStitcher) (strip : ScanStrip)
    (align : AlignmentStats)
    (hinit : st.initialized = true) (hne : st.strips ≠ [])
    (hsucc : align.success = true) (x y : Nat)
    (hy : y < st.stitched_image.height)
    (hband : (y : Int) < st.current_height - st.overlap_pixels) :
    (addStrip st strip align).2.stitched_image.pix x y
      = st.stitched_image.pix x y := by
  have hne' : st.strips.isEmpty = false := isEmpty_false_of_ne_nil hne
  simp only [addStrip, hinit, hne', hsucc, Bool.not_true, Bool.false_eq_true,
    if_false, Bool.not_false, if_true]
  have hbase : ∀ (base : Image), base.pix x y = st.stitched_image.pix x y →
      (if st.blending_enabled ∧ 0 < st.overlap_pixels then
          blendOverlapRegion base strip.image (truncInt align.offset_x)
            (st.current_height - st.overlap_pixels) st.overlap_pixels
        else copyStrip base strip.image
          (st.current_height - st.overlap_pixels)).pix x y
        = st.stitched_image.pix x y := by
    intro base hb
    by_cases hmode : st.blending_enabled ∧ 0 < st.overlap_pixels
    · rw [if_pos hmode]
      have hneg : ¬ (0 ≤ (y : Int) - (st.current_height - st.overlap_pixels)
          ∧ (y : Int) - (st.current_height - st.overlap_pixels)
              < (strip.image.height : Int)
          ∧ 0 ≤ (x : Int) - truncInt align.offset_x
          ∧ (x : Int) - truncInt align.offset_x < (strip.image.width : Int)
          ∧ x < base.width ∧ y < base.height) := by
        intro hcon
        omega
      simp only [blendOverlapRegion, if_neg hneg]
      exact hb
    · rw [if_neg hmode]
      have hneg : ¬ (0 ≤ (y : Int) - (st.current_height - st.overlap_pixels)
          ∧ (y : Int) - (st.current_height - st.overlap_pixels)
              < (strip.image.height : Int)
          ∧ x < strip.image.width ∧ y < base.height) := by
        intro hcon
        omega
      simp only [copyStrip, if_neg hneg]
      exact hb
  by_cases hexp : (st.stitched_image.height : Int)
      < st.current_height + (strip.image.height : Int) - st.overlap_pixels
  · rw [if_pos hexp]
    exact hbase _ (by simp [expandImage, hy])
  · rw [if_neg hexp]
    exact hbase _ rfl

/-- C9 witness: row 0 of a 2×2 composite survives a successful blend-mode
`addStrip` with overlap 1. -/
theorem C9_composite_append_only_witness :
    (addStrip
        { overlap_pixels := 1, min_correlation := 7 / 10, blending_enabled := true,
          strips := [gradStrip 0],
          stitched_image := { width := 2, height := 2, pix := fun x y => x + y },
          last_alignment := okAlign, current_height := 2, initialized := true }
        { image := { width := 2, height := 2, pix := fun x y => x * y },
          strip_id := 1, physical_position := 0, is_left_to_right := true }
        okAlign).2.stitched_image.pix 1 0
      = ({ width := 2, height := 2, pix := fun x y => x + y } : Image).pix 1 0 := by
  exact C9_composite_append_only
    { overlap_pixels := 1, min_correlation := 7 / 10, blending_enabled := true,
      strips := [gradStrip 0],
      stitched_image := { width := 2, height := 2, pix := fun x y => x + y },
      last_alignment := okAlign, current_height := 2, initialized := true }
    { image := { width := 2, height := 2, pix := fun x y => x * y },
      strip_id := 1, physical_position := 0, is_left_to_right := true }
    okAlign rfl (List.cons_ne_nil _ _) rfl 1 0 (by decide) (by decide)

/-- The per-pixel seam blend as spec §4.3 words it: the same ramp weight, but
`integer-rounded to the sample's bit depth with saturation clamp, not
wraparound` — round to nearest and clamp to `[0, 255]`.  Stated only to
compare the spec's described operation with the source's `blendPix`. -/
def specBlendPixRounded (blend_height : Int) (y : Nat) (s t : Nat) : Nat :=
  if (y : Int) < blend_height then
    (min 255 (max 0 (round ((y : Rat) / (blend_height : Rat) * (s : Rat) +
      (1 - (y : Rat) / (blend_height : Rat)) * (t : Rat))))).toNat
  else s

/-- C6 counterexample: with `overlap_pixels = 2`, at overlap row `y = 1`,
incoming 0, existing 255, the exact combination is `127.5`; the source's
`static_cast<byte_t>` truncates to 127, while the spec's `integer-rounded`
operation gives 128.  The write is a truncation, not a rounding, and the
source applies no saturation clamp at all. -/
theorem C6_blend_rounding_counterexample :
    blendPix 2 1 0 255 = 127 ∧ specBlendPixRounded 2 1 0 255 = 128
      ∧ blendPix 2 1 0 255 ≠ specBlendPixRounded 2 1 0 255 := by
  have h1 : blendPix 2 1 0 255 = 127 := by
    unfold blendPix
    rw [if_pos (by decide)]
    norm_num
    rw [show (255 : ℚ) / 2 = 1 / 2 + (127 : ℕ) by norm_num]
    rw [Nat.floor_add_nat (by norm_num)]
    norm_num
  have h2 : specBlendPixRounded 2 1 0 255 = 128 := by
    unfold specBlendPixRounded
    rw [if_pos (by decide)]
    norm_num
    rw [round_eq]
    norm_num
    decide
  exact ⟨h1, h2, by rw [h1, h2]; decide⟩

/-- C6 (amended): for each written pixel of the overlap region, the value the
source writes is `alpha * incoming + (1 - alpha) * existing` with
`alpha = y / overlap_pixels`, converted to the sample type by truncation
toward zero (not round-to-nearest, and with no explicit clamp; the convex
combination stays within `[0, 255]` on byte inputs, so wraparound cannot
trigger); every blended pixel lies between the incoming and existing values,
and rows at or beyond `overlap_pixels` are a direct overwrite. -/
theorem C6_blend_truncated_between (target source : Image)
    (offset_x offset_y blend_height : Int) (x y sx sy : Nat)
    (hx : x < target.width) (hy : y < target.height)
    (hsx : (x : Int) - offset_x = (sx : Int)) (hsxw : sx < source.width)
    (hsy : (y : Int) - offset_y = (sy : Int)) (hsyh : sy < source.height) :
    (blendOverlapRegion target source offset_x offset_y blend_height).pix x y
        = blendPix blend_height sy (source.pix sx sy) (target.pix x y)
      ∧ ((sy : Int) < blend_height →
          min (source.pix sx sy) (target.pix x y)
              ≤ blendPix blend_height sy (source.pix sx sy) (target.pix x y)
            ∧ blendPix blend_height sy (source.pix sx sy) (target.pix x y)
              ≤ max (source.pix sx sy) (target.pix x y))
      ∧ (blend_height ≤ (sy : Int) →
          blendPix blend_height sy (source.pix sx sy) (target.pix x y)
            = source.pix sx sy) := by
  have hcond : 0 ≤ (y : Int) - offset_y
      ∧ (y : Int) - offset_y < (source.height : Int)
      ∧ 0 ≤ (x : Int) - offset_x ∧ (x : Int) - offset_x < (source.width : Int)
      ∧ x < target.width ∧ y < target.height := by
    refine ⟨by omega, by omega, by omega, by omega, hx, hy⟩
  refine ⟨?_, fun hband => blendPix_between _ _ _ _ hband, fun hbeyond => ?_⟩
  · simp only [blendOverlapRegion, if_pos hcond]
    have e1 : ((y : Int) - offset_y).toNat = sy := by omega
    have e2 : ((x : Int) - offset_x).toNat = sx := by omega
    rw [e1, e2]
  · unfold blendPix
    rw [if_neg (by omega)]

/-- C6 witness: a concrete blend of a 1×2 strip into a 2×2 composite with
`overlap_pixels = 2` at the pixel `(1, 1)`. -/
theorem C6_blend_truncated_between_witness :
    (blendOverlapRegion { width := 2, height := 2, pix := fun _ _ => 200 }
          { width := 1, height := 2, pix := fun _ _ => 100 } 1 0 2).pix 1 1
        = blendPix 2 1 100 200
      ∧ ((1 : Int) < 2 →
          min 100 200 ≤ blendPix 2 1 100 200
            ∧ blendPix 2 1 100 200 ≤ max 100 200)
      ∧ ((2 : Int) ≤ 1 → blendPix 2 1 100 200 = 100) := by
  exact C6_blend_truncated_between
    { width := 2, height := 2, pix := fun _ _ => 200 }
    { width := 1, height := 2, pix := fun _ _ => 100 } 1 0 2 1 1 0 1
    (by decide) (by decide) (by decide) (by decide) (by decide) (by decide)

/-! ## Tiling claims -/

/-- A tile contains the pixel `(px, py)`: the tile generator has no core/halo
distinction, so the region a tile contributes is its full extent. -/
def coversPixel (t : Tile) (px py : Int) : Prop :=
  t.x ≤ px ∧ px < t.x + t.width ∧ t.y ≤ py ∧ py < t.y + t.height

instance (t : Tile) (px py : Int) : Decidable (coversPixel t px py) :=
  inferInstanceAs (Decidable (_ ∧ _ ∧ _ ∧ _))

/-- How many generated tiles contain the pixel `(px, py)`. -/
def coverCount (tiles : List Tile) (px py : Int) : Nat :=
  (tiles.filter fun t => decide (coversPixel t px py)).length

/-- The device footprint of a tile in the budget bound of spec §4.4: its
pixel extent times the 4-byte float intermediate cost per channel. -/
def tileFootprintBytes (t : Tile) : Int := t.width * t.height * 4

/-- A small tiling configuration: 4×4 tiles with overlap 2, and a memory
budget (`max_vram_bytes`) of 24 bytes — exactly one row's float footprint for
a width-6 image. -/
def tileCfgDemo : GPUConfig :=
  { device_id := 0, max_vram_bytes := 24, tile_width := 4, tile_height := 4,
    tile_overlap := 2, batch_size := 4 }

theorem loopTerminates_iff (step bound : Int) (hb : 0 < bound) :
    loopTerminates step bound ↔ 0 < step := by
  constructor
  · rintro ⟨n, hn⟩
    by_contra hstep
    push_neg at hstep
    apply hn
    unfold loopIter
    calc (n : Int) * step ≤ 0 :=
          mul_nonpos_of_nonneg_of_nonpos (Int.ofNat_nonneg n) hstep
      _ < bound := hb
  · intro hstep
    refine ⟨bound.toNat, ?_⟩
    unfold loopIter
    rw [not_lt]
    calc bound ≤ (bound.toNat : Int) := by omega
      _ = (bound.toNat : Int) * 1 := by ring
      _ ≤ (bound.toNat : Int) * step :=
          mul_le_mul_of_nonneg_left hstep (Int.ofNat_nonneg _)

theorem axisStarts_cover (step bound c : Nat) (hstep : 0 < step)
    (hc : c < bound) :
    ∃ s ∈ axisStarts step bound, s ≤ c ∧ c < s + step := by
  refine ⟨c / step * step, ?_, Nat.div_mul_le_self c step, ?_⟩
  · unfold axisStarts
    refine List.mem_map.mpr ⟨c / step, List.mem_range.mpr ?_, rfl⟩
    have h1 : c / step ≤ (bound - 1) / step := Nat.div_le_div_right (by omega)
    have h2 : (bound + step - 1) / step = (bound - 1) / step + 1 := by
      rw [show bound + step - 1 = bound - 1 + step by omega,
        Nat.add_div_right _ hstep]
    omega
  · have h3 := Nat.div_add_mod c step
    have h4 := Nat.mod_lt c hstep
    have h5 : c / step * step = step * (c / step) := Nat.mul_comm _ _
    omega

theorem axisStarts_lt (step bound : Nat) (hstep : 0 < step) :
    ∀ s ∈ axisStarts step bound, s < bound := by
  intro s hs
  unfold axisStarts at hs
  obtain ⟨n, hn, rfl⟩ := List.mem_map.mp hs
  rw [List.mem_range] at hn
  rcases Nat.eq_zero_or_pos bound with hb | hb
  · subst hb
    have h0 : (0 + step - 1) / step = 0 := Nat.div_eq_of_lt (by omega)
    omega
  · have h2 : (bound + step - 1) / step = (bound - 1) / step + 1 := by
      rw [show bound + step - 1 = bound - 1 + step by omega,
        Nat.add_div_right _ hstep]
    have h3 : n ≤ (bound - 1) / step := by omega
    have h4 : n * step ≤ (bound - 1) / step * step := Nat.mul_le_mul_right _ h3
    have h5 : (bound - 1) / step * step ≤ bound - 1 := Nat.div_mul_le_self _ _
    omega

theorem mem_generateTilesPos_of_starts (w h : Nat) (cfg : GPUConfig)
    (sx sy : Nat)
    (hx : sx ∈ axisStarts (cfg.tile_width - cfg.tile_overlap).toNat w)
    (hy : sy ∈ axisStarts (cfg.tile_height - cfg.tile_overlap).toNat h) :
    ({ x := (sx : Int), y := (sy : Int),
       width := min cfg.tile_width ((w : Int) - (sx : Int)),
       height := min cfg.tile_height ((h : Int) - (sy : Int)),
       overlap := cfg.tile_overlap } : Tile) ∈ generateTilesPos w h cfg := by
  unfold generateTilesPos
  rw [List.mem_flatMap]
  refine ⟨sy, hy, ?_⟩
  rw [List.mem_map]
  exact ⟨sx, hx, rfl⟩

/-- Every tile produced by `generateTilesPos` arises from a pair of axis
starts. -/
theorem generateTilesPos_shape (w h : Nat) (cfg : GPUConfig) (t : Tile)
    (ht : t ∈ generateTilesPos w h cfg) :
    ∃ sx ∈ axisStarts (cfg.tile_width - cfg.tile_overlap).toNat w,
      ∃ sy ∈ axisStarts (cfg.tile_height - cfg.tile_overlap).toNat h,
        t = { x := (sx : Int), y := (sy : Int),
              width := min cfg.tile_width ((w : Int) - (sx : Int)),
              height := min cfg.tile_height ((h : Int) - (sy : Int)),
              overlap := cfg.tile_overlap } := by
  unfold generateTilesPos at ht
  obtain ⟨sy, hy, hmem⟩ := List.mem_flatMap.mp ht
  obtain ⟨sx, hx, rfl⟩ := List.mem_map.mp hmem
  exact ⟨sx, hx, sy, hy, rfl⟩

/-- Shared coverage fact: with positive steps and a nonnegative overlap,
every in-image pixel is contained in at least one generated tile, and every
generated tile is a nonempty rectangle inside the image. -/
theorem tilesCoverAndFit (w h : Nat) (cfg : GPUConfig)
    (hvw : cfg.tile_overlap < cfg.tile_width)
    (hvh : cfg.tile_overlap < cfg.tile_height)
    (hov : 0 ≤ cfg.tile_overlap) :
    (∀ px py : Nat, px < w → py < h →
        ∃ t ∈ generateTilesPos w h cfg, coversPixel t (px : Int) (py : Int))
      ∧ (∀ t ∈ generateTilesPos w h cfg,
          0 ≤ t.x ∧ 0 ≤ t.y ∧ 0 < t.width ∧ 0 < t.height
            ∧ t.x + t.width ≤ (w : Int) ∧ t.y + t.height ≤ (h : Int)) := by
  have hsx : 0 < (cfg.tile_width - cfg.tile_overlap).toNat := by omega
  have hsy : 0 < (cfg.tile_height - cfg.tile_overlap).toNat := by omega
  constructor
  · intro px py hpx hpy
    obtain ⟨sx, hsxm, hsx1, hsx2⟩ := axisStarts_cover _ w px hsx hpx
    obtain ⟨sy, hsym, hsy1, hsy2⟩ := axisStarts_cover _ h py hsy hpy
    refine ⟨_, mem_generateTilesPos_of_starts w h cfg sx sy hsxm hsym, ?_⟩
    show (sx : Int) ≤ (px : Int)
      ∧ (px : Int) < (sx : Int) + min cfg.tile_width ((w : Int) - (sx : Int))
      ∧ (sy : Int) ≤ (py : Int)
      ∧ (py : Int) < (sy : Int) + min cfg.tile_height ((h : Int) - (sy : Int))
    have hmw := min_cases cfg.tile_width ((w : Int) - (sx : Int))
    have hmh := min_cases cfg.tile_height ((h : Int) - (sy : Int))
    rcases hmw with ⟨hmw1, _⟩ | ⟨hmw1, _⟩ <;> rcases hmh with ⟨hmh1, _⟩ | ⟨hmh1, _⟩ <;>
      rw [hmw1, hmh1] <;> omega
  · intro t ht
    obtain ⟨sx, hsxm, sy, hsym, rfl⟩ := generateTilesPos_shape w h cfg t ht
    have hxw : sx < w := axisStarts_lt _ w hsx sx hsxm
    have hyh : sy < h := axisStarts_lt _ h hsy sy hsym
    show (0 : Int) ≤ (sx : Int) ∧ (0 : Int) ≤ (sy : Int)
      ∧ (0 : Int) < min cfg.tile_width ((w : Int) - (sx : Int))
      ∧ (0 : Int) < min cfg.tile_height ((h : Int) - (sy : Int))
      ∧ (sx : Int) + min cfg.tile_width ((w : Int) - (sx : Int)) ≤ (w : Int)
      ∧ (sy : Int) + min cfg.tile_height ((h : Int) - (sy : Int)) ≤ (h : Int)
    have hmw := min_cases cfg.tile_width ((w : Int) - (sx : Int))
    have hmh := min_cases cfg.tile_height ((h : Int) - (sy : Int))
    rcases hmw with ⟨hmw1, hmw2⟩ | ⟨hmw1, hmw2⟩ <;>
      rcases hmh with ⟨hmh1, hmh2⟩ | ⟨hmh1, hmh2⟩ <;>
      rw [hmw1, hmh1] <;> omega

/-- C3 counterexample: on a 6×4 image with 4×4 tiles, overlap 2, and a
24-byte budget (exactly one row's 6 px × 4 B float footprint), the generated
plan covers pixel `(2, 0)` twice — the tiles overlap and the code has no
core/halo split, so the exactly-once cover fails — and its first tile's
footprint is 64 B > 24 B: `generateTiles` never reads the memory budget, so
the budget bound fails for any safety factor ≥ 1. -/
theorem C3_tilePlan_counterexample :
    coverCount (generateTilesPos 6 4 tileCfgDemo) 2 0 = 2
      ∧ (generateTilesPos 6 4 tileCfgDemo).head? =
          some { x := 0, y := 0, width := 4, height := 4, overlap := 2 }
      ∧ tileFootprintBytes
          { x := 0, y := 0, width := 4, height := 4, overlap := 2 } = 64
      ∧ (tileCfgDemo.max_vram_bytes : Int) = 6 * 4
      ∧ ¬ tileFootprintBytes
            { x := 0, y := 0, width := 4, height := 4, overlap := 2 }
          ≤ (tileCfgDemo.max_vram_bytes : Int) := by
  decide

/-- C3 (amended): for every positive image size and every configuration with
`0 ≤ tile_overlap < tile_width` and `tile_overlap < tile_height`, the tiles
`generateTiles` produces cover every image pixel **at least** once (tiles
overlap whenever `tile_overlap > 0`, and the code has no core/halo
distinction), and every tile is a nonempty rectangle lying inside the image.
No budget bound holds: the generator never consults `memory_budget_bytes`
(see the counterexample). -/
theorem C3_tiles_cover_amended (w h : Nat) (cfg : GPUConfig)
    (hvw : cfg.tile_overlap < cfg.tile_width)
    (hvh : cfg.tile_overlap < cfg.tile_height)
    (hov : 0 ≤ cfg.tile_overlap) :
    (∀ px py : Nat, px < w → py < h →
        ∃ t ∈ generateTilesPos w h cfg, coversPixel t (px : Int) (py : Int))
      ∧ (∀ t ∈ generateTilesPos w h cfg,
          0 ≤ t.x ∧ 0 ≤ t.y ∧ 0 < t.width ∧ 0 < t.height
            ∧ t.x + t.width ≤ (w : Int) ∧ t.y + t.height ≤ (h : Int)) :=
  tilesCoverAndFit w h cfg hvw hvh hov

/-- C3 witness: pixel `(2, 0)` of the 6×4 demo plan is covered, and the
demo plan's tiles all fit inside the image. -/
theorem C3_tiles_cover_amended_witness :
    (∃ t ∈ generateTilesPos 6 4 tileCfgDemo, coversPixel t 2 0)
      ∧ (∀ t ∈ generateTilesPos 6 4 tileCfgDemo,
          0 ≤ t.x ∧ 0 ≤ t.y ∧ 0 < t.width ∧ 0 < t.height
            ∧ t.x + t.width ≤ (6 : Int) ∧ t.y + t.height ≤ (4 : Int)) := by
  have h := C3_tiles_cover_amended 6 4 tileCfgDemo (by decide) (by decide)
    (by decide)
  exact ⟨h.1 2 0 (by decide) (by decide), h.2⟩

/-- C10: for a positive image size, the `generateTiles` loop nest terminates
exactly when `tile_overlap` is strictly smaller than both `tile_width` and
`tile_height`; otherwise the per-axis step `tile_w - overlap` (resp.
`tile_h - overlap`) is zero or negative and the corresponding loop counter
never reaches its bound. -/
theorem C10_generateTiles_termination (width height : Int) (cfg : GPUConfig)
    (hw : 0 < width) (hh : 0 < height) :
    generateTilesTerminates width height cfg
      ↔ (cfg.tile_overlap < cfg.tile_width ∧ cfg.tile_overlap < cfg.tile_height) := by
  unfold generateTilesTerminates
  rw [loopTerminates_iff _ _ hh, loopTerminates_iff _ _ hw]
  omega

/-- C10 witness: the default 4096×4096/128 configuration terminates on a
20000×20000 image, as the equivalence instantiates. -/
theorem C10_generateTiles_termination_witness :
    generateTilesTerminates 20000 20000
        { device_id := 0, max_vram_bytes := 0, tile_width := 4096,
          tile_height := 4096, tile_overlap := 128, batch_size := 4 }
      ↔ ((128 : Int) < 4096 ∧ (128 : Int) < 4096) := by
  exact C10_generateTiles_termination 20000 20000
    { device_id := 0, max_vram_bytes := 0, tile_width := 4096,
      tile_height := 4096, tile_overlap := 128, batch_size := 4 }
    (by decide) (by decide)

/-! ## Helper lemmas for the warp claims -/

theorem clampByte_natCast (v : Nat) (hv : v ≤ 255) : clampByte (v : ℚ) = v := by
  unfold clampByte
  have h1 : min (v : ℚ) 255 = (v : ℚ) := min_eq_left (by exact_mod_cast hv)
  have h2 : max 0 (v : ℚ) = (v : ℚ) := max_eq_right (Nat.cast_nonneg v)
  rw [h1, h2, Nat.floor_natCast]

theorem clampByte_zero : clampByte 0 = 0 := by
  unfold clampByte
  norm_num

theorem div_mul_cancel255 (v : Nat) : (v : ℚ) / 255 * 255 = (v : ℚ) := by
  field_simp

/-- `roundHalfEven` agrees with the nearest integer when the distance is
strictly below one half. -/
theorem roundHalfEven_eq_of_abs_lt (q : ℚ) (m : Int)
    (h : |q - (m : ℚ)| < 1 / 2) : roundHalfEven q = m := by
  rw [abs_lt] at h
  obtain ⟨h1, h2⟩ := h
  by_cases hq : (m : ℚ) ≤ q
  · have hfloor : ⌊q⌋ = m := by
      rw [Int.floor_eq_iff]
      constructor
      · exact hq
      · linarith
    unfold roundHalfEven
    rw [hfloor, if_pos (by linarith)]
  · push_neg at hq
    have hfloor : ⌊q⌋ = m - 1 := by
      rw [Int.floor_eq_iff]
      constructor
      · push_cast
        linarith
      · push_cast
        linarith
    unfold roundHalfEven
    rw [hfloor]
    rw [if_neg (by push_cast; linarith), if_pos (by push_cast; linarith)]
    omega

/-- `roundHalfEven` at an exact half: ties go to the even neighbour. -/
theorem roundHalfEven_int_add_half (m : Int) :
    roundHalfEven ((m : ℚ) + 1 / 2) = if 2 ∣ m then m else m + 1 := by
  have hfloor : ⌊(m : ℚ) + 1 / 2⌋ = m := by
    rw [Int.floor_eq_iff]
    constructor
    · linarith
    · linarith
  have hfrac : (m : ℚ) + 1 / 2 - (⌊(m : ℚ) + 1 / 2⌋ : ℚ) = 1 / 2 := by
    rw [hfloor]
    ring
  unfold roundHalfEven
  rw [hfrac, hfloor, if_neg (by norm_num), if_neg (by norm_num)]

theorem unnormalize_true_eq (size : Nat) (coord : ℚ) :
    unnormalize true size coord = (coord + 1) / 2 * ((size : ℚ) - 1) := rfl

theorem unnormalize_false_eq (size : Nat) (coord : ℚ) :
    unnormalize false size coord = ((coord + 1) * (size : ℚ) - 1) / 2 := rfl

theorem linspace_last_unnorm_true (n i : Nat) (hi : i < n) :
    unnormalize true n (linspace n i) = (i : ℚ) := by
  rw [unnormalize_true_eq]
  unfold linspace
  rcases Nat.lt_or_ge n 2 with hn | hn
  · have hn1 : n = 1 := by omega
    have hi0 : i = 0 := by omega
    subst hn1
    subst hi0
    norm_num
  · have h2 : (2 : ℚ) ≤ (n : ℚ) := by exact_mod_cast hn
    have hne : ((n : ℚ) - 1) ≠ 0 := by
      intro hcon
      nlinarith
    rw [if_neg (by omega)]
    field_simp
    ring

theorem padGet_inBounds (t : Tensor3) (c x y : Nat) (hx : x < t.width)
    (hy : y < t.height) : padGet t c (y : Int) (x : Int) = t.val c y x := by
  unfold padGet
  rw [if_pos ⟨Int.ofNat_nonneg x, by exact_mod_cast hx, Int.ofNat_nonneg y,
    by exact_mod_cast hy⟩]
  simp

theorem padGet_outOfBounds (t : Tensor3) (c : Nat) (iy ix : Int)
    (h : ¬ (0 ≤ ix ∧ ix < (t.width : Int) ∧ 0 ≤ iy ∧ iy < (t.height : Int))) :
    padGet t c iy ix = 0 := by
  unfold padGet
  rw [if_neg h]

/-- `roundHalfEven` is the identity on integers. -/
theorem roundHalfEven_intCast (m : Int) : roundHalfEven ((m : ℚ)) = m :=
  roundHalfEven_eq_of_abs_lt _ m (by rw [sub_self, abs_zero]; norm_num)

/-- Nearest resampling at an exactly integral in-bounds coordinate returns
the sample there. -/
theorem nearestSample_intCoord (t : Tensor3) (c x y : Nat)
    (hx : x < t.width) (hy : y < t.height) :
    nearestSample t c (x : ℚ) (y : ℚ) = t.val c y x := by
  unfold nearestSample
  rw [show ((x : ℚ)) = (((x : Nat) : Int) : ℚ) from by push_cast; ring,
    show ((y : ℚ)) = (((y : Nat) : Int) : ℚ) from by push_cast; ring]
  rw [roundHalfEven_intCast, roundHalfEven_intCast]
  exact padGet_inBounds t c x y hx hy

/-- With an all-zero deformation, the nearest `align_corners=true` grid
sampler built over the tensor's own dimensions is the identity: the base
grid unnormalizes exactly onto the integer pixel coordinates. -/
theorem gridSampler_nearest_id (t : Tensor3) (H W : Nat)
    (hH : t.height = H) (hW : t.width = W) (d : DefTensor)
    (hd : ∀ y x, d.dxv y x = 0 ∧ d.dyv y x = 0) (c x y : Nat)
    (hx : x < W) (hy : y < H) :
    (gridSampler t (createSamplingGrid H W d) InterpMode.nearest true).val c y x
      = t.val c y x := by
  subst hH
  subst hW
  show nearestSample t c
      (unnormalize true t.width
        (linspace t.width x + d.dxv y x / ((t.width : ℚ) / 2)))
      (unnormalize true t.height
        (linspace t.height y + d.dyv y x / ((t.height : ℚ) / 2)))
    = t.val c y x
  rw [(hd y x).1, (hd y x).2]
  simp only [zero_div, add_zero]
  rw [linspace_last_unnorm_true _ _ hx, linspace_last_unnorm_true _ _ hy]
  exact nearestSample_intCoord t c x y hx hy

/-- The direct warp with an all-zero field in the default `"bilinear"`
configuration — which executes libtorch mode 1, nearest-neighbour, with
`align_corners=true` — reproduces the source image bit for bit. -/
theorem warpImageDirect_default_zeroField (input : WImage)
    (hb : ∀ x y c : Nat, input.pix x y c ≤ 255) (x y c : Nat)
    (hx : x < input.width) (hy : y < input.height) :
    (warpImageDirect input (zeroField input.width input.height)
        "bilinear").pix x y c = input.pix x y c := by
  simp only [warpImageDirect]
  rw [if_neg (by decide : ¬ ("bilinear" = "nearest"))]
  show clampByte ((gridSampler (imageToTensor input)
      (createSamplingGrid input.height input.width
        (deformationToTensor (zeroField input.width input.height)))
      InterpMode.nearest true).val c y x * 255) = input.pix x y c
  rw [gridSampler_nearest_id (imageToTensor input) input.height input.width
    rfl rfl _ (fun _ _ => ⟨rfl, rfl⟩) c x y hx hy]
  show clampByte ((input.pix x y c : ℚ) / 255 * 255) = input.pix x y c
  rw [div_mul_cancel255, clampByte_natCast _ (hb x y c)]


/-- A 2×2 all-255 test image. -/
def flatDemoImage : WImage :=
  { width := 2, height := 2, channels := 1, pix := fun _ _ _ => 255 }

/-- A 3×3 gradient test image. -/
def oddDemoImage : WImage :=
  { width := 3, height := 3, channels := 1, pix := fun x y _ => (x + y) % 256 }

/-- The `"nearest"` configuration — which actually executes libtorch mode 0,
bilinear, with `align_corners=false` — does not reproduce a 2×2 all-255
image under the zero field: both sampling coordinates for pixel `(1, 1)`
unnormalize to `1.5`, three of the four bilinear neighbours fall outside the
image (zero padding), and the written value is `⌊0.25 * 255⌋ = 63`. -/
theorem nearestConfig_flat_blend :
    (warpImageDirect flatDemoImage (zeroField 2 2) "nearest").pix 1 1 0 = 63 := by
  have hf1 : ⌊(3 / 2 : ℚ)⌋ = 1 := by
    rw [Int.floor_eq_iff]
    constructor <;> norm_num
  have hfr : Int.fract ((3 / 2 : ℚ)) = 1 / 2 := by
    unfold Int.fract
    rw [hf1]
    norm_num
  have hf63 : (⌊(255 / 4 : ℚ)⌋₊ : Nat) = 63 := by
    rw [show (255 : ℚ) / 4 = 3 / 4 + (63 : ℕ) by norm_num]
    rw [Nat.floor_add_nat (by norm_num)]
    norm_num
  simp only [warpImageDirect]
  rw [if_pos trivial]
  norm_num [flatDemoImage, zeroField, imageToTensor, deformationToTensor,
    createSamplingGrid, gridSampler, bilinearSample, unnormalize, linspace,
    padGet, tensorToImage, clampByte, hf1, hfr, hf63]

/-- C8 counterexample: configured for nearest-neighbour interpolation, the
zero-field warp of a 2×2 all-255 image writes 63 at pixel `(1, 1)` instead
of 255 — neither bit-for-bit nor within rounding tolerance.  The `"nearest"`
branch passes `grid_sampler` the literal 0, which in libtorch is bilinear
interpolation, run with `align_corners=false`: the base grid lands between
pixel centres and the border samples are blended with the zero padding. -/
theorem C8_nearest_config_counterexample :
    (warpImageDirect flatDemoImage (zeroField 2 2) "nearest").pix 1 1 0 = 63
      ∧ flatDemoImage.pix 1 1 0 = 255
      ∧ (warpImageDirect flatDemoImage (zeroField 2 2) "nearest").pix 1 1 0
        ≠ flatDemoImage.pix 1 1 0 :=
  ⟨nearestConfig_flat_blend, rfl, by rw [nearestConfig_flat_blend]; decide⟩

/-- C8 (amended): with the all-zero displacement field, the default
`"bilinear"` configuration — which actually executes nearest-neighbour
resampling (libtorch mode 1) with `align_corners=true` — reproduces the
source bit for bit: the base grid unnormalizes exactly onto the pixel
centres.  The `"nearest"` configuration — which actually executes bilinear
resampling (mode 0) with `align_corners=false` — does not reproduce the
source even within rounding tolerance: its grid lands between pixel centres
and samples are blended with neighbours and the zero border, e.g. pixel
`(1, 1)` of a 2×2 all-255 image becomes 63. -/
theorem C8_zero_field_reproduction (input : WImage)
    (hb : ∀ x y c : Nat, input.pix x y c ≤ 255) :
    ((warpImageDirect input (zeroField input.width input.height)
        "bilinear").width = input.width)
      ∧ ((warpImageDirect input (zeroField input.width input.height)
          "bilinear").height = input.height)
      ∧ (∀ x y c : Nat, x < input.width → y < input.height →
          (warpImageDirect input (zeroField input.width input.height)
            "bilinear").pix x y c = input.pix x y c)
      ∧ ((warpImageDirect flatDemoImage (zeroField 2 2) "nearest").pix 1 1 0
            = 63
          ∧ flatDemoImage.pix 1 1 0 = 255) :=
  ⟨rfl, rfl,
    fun x y c hx hy => warpImageDirect_default_zeroField input hb x y c hx hy,
    nearestConfig_flat_blend, rfl⟩

/-- C8 witness: the 3×3 gradient image under the default configuration. -/
theorem C8_zero_field_reproduction_witness :
    ((warpImageDirect oddDemoImage (zeroField 3 3) "bilinear").width = 3)
      ∧ ((warpImageDirect oddDemoImage (zeroField 3 3) "bilinear").height = 3)
      ∧ (∀ x y c : Nat, x < 3 → y < 3 →
          (warpImageDirect oddDemoImage (zeroField 3 3) "bilinear").pix x y c
            = oddDemoImage.pix x y c)
      ∧ ((warpImageDirect flatDemoImage (zeroField 2 2) "nearest").pix 1 1 0
            = 63
          ∧ flatDemoImage.pix 1 1 0 = 255) :=
  C8_zero_field_reproduction oddDemoImage
    (fun x y _ => Nat.le_of_lt_succ (Nat.mod_lt _ (by norm_num)))


/-- One tile step of the zero-field tiled warp: pixels covered by the tile
receive their source value (the per-tile grid is the identity on the tile's
own extent), all other pixels are untouched. -/
theorem warpTileStep_pix (input : WImage)
    (hb : ∀ x y c : Nat, input.pix x y c ≤ 255) (tile : Tile)
    (hfit : 0 ≤ tile.x ∧ 0 ≤ tile.y ∧ 0 < tile.width ∧ 0 < tile.height
      ∧ tile.x + tile.width ≤ (input.width : Int)
      ∧ tile.y + tile.height ≤ (input.height : Int))
    (out : WImage) (how : out.width = input.width)
    (hoh : out.height = input.height) (x y c : Nat)
    (hx : x < input.width) (hy : y < input.height) (hc : c < input.channels) :
    (warpTileStep (imageToTensor input)
        (deformationToTensor (zeroField input.width input.height))
        input.channels out tile).pix x y c
      = if coversPixel tile (x : Int) (y : Int) then input.pix x y c
        else out.pix x y c := by
  obtain ⟨hx0, hy0, hw0, hh0, hxw, hyh⟩ := hfit
  simp only [warpTileStep, writeTile]
  by_cases hcov : coversPixel tile (x : Int) (y : Int)
  · have hc1 := hcov.1
    have hc2 := hcov.2.1
    have hc3 := hcov.2.2.1
    have hc4 := hcov.2.2.2
    rw [if_pos hcov,
      if_pos ⟨hc1, hc2, hc3, hc4, (by omega : x < out.width),
        (by omega : y < out.height), hc⟩]
    rw [gridSampler_nearest_id _ tile.height.toNat tile.width.toNat rfl rfl _
      (fun _ _ => ⟨rfl, rfl⟩) c ((x : Int) - tile.x).toNat
      ((y : Int) - tile.y).toNat (by omega) (by omega)]
    show clampByte ((input.pix (tile.x.toNat + ((x : Int) - tile.x).toNat)
        (tile.y.toNat + ((y : Int) - tile.y).toNat) c : ℚ) / 255 * 255)
      = input.pix x y c
    rw [show tile.x.toNat + ((x : Int) - tile.x).toNat = x from by omega,
      show tile.y.toNat + ((y : Int) - tile.y).toNat = y from by omega]
    rw [div_mul_cancel255, clampByte_natCast _ (hb x y c)]
  · have hguard : ¬ (tile.x ≤ (x : Int) ∧ (x : Int) < tile.x + tile.width
        ∧ tile.y ≤ (y : Int) ∧ (y : Int) < tile.y + tile.height
        ∧ x < out.width ∧ y < out.height ∧ c < input.channels) :=
      fun hcon => hcov ⟨hcon.1, hcon.2.1, hcon.2.2.1, hcon.2.2.2.1⟩
    rw [if_neg hcov, if_neg hguard]

/-- Folding the zero-field tile step over any list of in-image tiles: a pixel
covered by some tile of the list ends at its source value, any other pixel
keeps the accumulator's value. -/
theorem foldl_warpTileStep_pix (input : WImage)
    (hb : ∀ x y c : Nat, input.pix x y c ≤ 255) (x y c : Nat)
    (hx : x < input.width) (hy : y < input.height) (hc : c < input.channels) :
    ∀ ts : List Tile,
      (∀ t ∈ ts, 0 ≤ t.x ∧ 0 ≤ t.y ∧ 0 < t.width ∧ 0 < t.height
        ∧ t.x + t.width ≤ (input.width : Int)
        ∧ t.y + t.height ≤ (input.height : Int)) →
      ∀ out : WImage, out.width = input.width → out.height = input.height →
      (ts.foldl (warpTileStep (imageToTensor input)
          (deformationToTensor (zeroField input.width input.height))
          input.channels) out).pix x y c
        = if ∃ t ∈ ts, coversPixel t (x : Int) (y : Int) then input.pix x y c
          else out.pix x y c := by
  intro ts
  induction ts with
  | nil =>
    intro _ out how hoh
    simp
  | cons t rest ih =>
    intro hts out how hoh
    rw [List.foldl_cons]
    have hstep_w : (warpTileStep (imageToTensor input)
        (deformationToTensor (zeroField input.width input.height))
        input.channels out t).width = input.width := how
    have hstep_h : (warpTileStep (imageToTensor input)
        (deformationToTensor (zeroField input.width input.height))
        input.channels out t).height = input.height := hoh
    rw [ih (fun t' ht' => hts t' (List.mem_cons_of_mem t ht')) _ hstep_w hstep_h]
    rw [warpTileStep_pix input hb t (hts t (List.mem_cons_self t rest)) out how
      hoh x y c hx hy hc]
    by_cases h1 : ∃ t' ∈ rest, coversPixel t' (x : Int) (y : Int)
    · obtain ⟨t', ht', hcv⟩ := h1
      rw [if_pos ⟨t', ht', hcv⟩,
        if_pos ⟨t', List.mem_cons_of_mem t ht', hcv⟩]
    · rw [if_neg h1]
      by_cases h2 : coversPixel t (x : Int) (y : Int)
      · rw [if_pos h2, if_pos ⟨t, List.mem_cons_self t rest, h2⟩]
      · have hguard2 : ¬ ∃ t' ∈ t :: rest, coversPixel t' (x : Int) (y : Int) := by
          rintro ⟨t', ht', hcv⟩
          rcases List.mem_cons.mp ht' with hteq | hmem
          · exact h2 (hteq ▸ hcv)
          · exact h1 ⟨t', hmem, hcv⟩
        rw [if_neg h2, if_neg hguard2]

/-- C4 (amended): for the all-zero displacement field (and a configuration
whose tile loops terminate, `0 ≤ tile_overlap < tile_width, tile_height`),
the tiled warp agrees with the non-tiled default-mode warp exactly: both
reproduce the source.  (In general the two paths differ: see the
counterexample — the tiled path normalises displacements by the tile's
dimensions instead of the image's, samples only inside the tile's
zero-padded extent with no halo, writes full overlapping tiles, and
hardcodes nearest-neighbour resampling — libtorch mode 1 — regardless of
`interpolation_mode_`.) -/
theorem C4_tiled_equals_direct_zero_field (input : WImage) (cfg : GPUConfig)
    (hb : ∀ x y c : Nat, input.pix x y c ≤ 255)
    (hvw : cfg.tile_overlap < cfg.tile_width)
    (hvh : cfg.tile_overlap < cfg.tile_height)
    (hov : 0 ≤ cfg.tile_overlap) (x y c : Nat)
    (hx : x < input.width) (hy : y < input.height) (hc : c < input.channels) :
    (warpImageTiled input (zeroField input.width input.height) cfg).pix x y c
        = (warpImageDirect input (zeroField input.width input.height)
            "bilinear").pix x y c
      ∧ (warpImageTiled input (zeroField input.width input.height) cfg).pix x y c
        = input.pix x y c := by
  have hca := tilesCoverAndFit input.width input.height cfg hvw hvh hov
  have htiled : (warpImageTiled input (zeroField input.width input.height)
      cfg).pix x y c = input.pix x y c := by
    simp only [warpImageTiled]
    rw [foldl_warpTileStep_pix input hb x y c hx hy hc
      (generateTilesPos input.width input.height cfg) hca.2
      { width := input.width, height := input.height,
        channels := input.channels, pix := fun _ _ _ => 0 } rfl rfl]
    rw [if_pos (hca.1 x y hx hy)]
  exact ⟨htiled.trans
    (warpImageDirect_default_zeroField input hb x y c hx hy).symm, htiled⟩

/-- A 2×1 black/white image, a constant one-pixel-right displacement field,
and 1×1 tiles with no overlap. -/
def tiledDemoImage : WImage :=
  { width := 2, height := 1, channels := 1,
    pix := fun x _ _ => if x = 0 then 0 else 255 }

/-- The constant displacement field `dx = 1, dy = 0` for `tiledDemoImage`. -/
def tiledDemoField : DeformationField :=
  { width := 2, height := 1, dx := fun _ _ => 1, dy := fun _ _ => 0 }

/-- 1×1 tiles with `tile_overlap = 0`. -/
def tiledDemoCfg : GPUConfig :=
  { device_id := 0, max_vram_bytes := 0, tile_width := 1, tile_height := 1,
    tile_overlap := 0, batch_size := 4 }

/-- C4 counterexample: warping the 2×1 image `[0, 255]` by the constant
displacement `dx = 1` in the default `"bilinear"` configuration (whose mode
literal 1 is nearest-neighbour in libtorch, `align_corners=true`).  The
direct path shifts pixel 1's sample coordinate to 1.5, `std::nearbyint`
rounds half-to-even to the out-of-range index 2, and the zero border value 0
is written.  The tiled path slices a 1×1 tile whose `align_corners=true`
grid collapses to coordinate 0 — the displacement is normalised by the
tile's own width and multiplied by the tile's `size - 1 = 0` — so the tile
reproduces its own pixel and writes 255.  A 255-level discrepancy, far
beyond any interpolation tolerance. -/
theorem C4_tiled_warp_counterexample :
    (warpImageDirect tiledDemoImage tiledDemoField "bilinear").pix 1 0 0 = 0
      ∧ (warpImageTiled tiledDemoImage tiledDemoField tiledDemoCfg).pix 1 0 0
        = 255 := by
  have hf1 : ⌊(3 / 2 : ℚ)⌋ = 1 := by
    rw [Int.floor_eq_iff]
    constructor <;> norm_num
  have hfr : Int.fract ((3 / 2 : ℚ)) = 1 / 2 := by
    unfold Int.fract
    rw [hf1]
    norm_num
  have h255 : (⌊(255 : ℚ)⌋₊ : Nat) = 255 := by
    rw [show (255 : ℚ) = ((255 : ℕ) : ℚ) by norm_num, Nat.floor_natCast]
  constructor
  · simp only [warpImageDirect]
    rw [if_neg (by decide : ¬ ("bilinear" = "nearest"))]
    norm_num [tiledDemoImage, tiledDemoField, imageToTensor,
      deformationToTensor, createSamplingGrid, gridSampler, nearestSample,
      roundHalfEven, unnormalize, linspace, padGet, tensorToImage, clampByte,
      hf1, hfr]
  · have htiles : generateTilesPos 2 1 tiledDemoCfg =
        [{ x := 0, y := 0, width := 1, height := 1, overlap := 0 },
         { x := 1, y := 0, width := 1, height := 1, overlap := 0 }] := by decide
    simp only [warpImageTiled]
    rw [show tiledDemoImage.width = 2 from rfl,
      show tiledDemoImage.height = 1 from rfl, htiles]
    simp only [List.foldl_cons, List.foldl_nil]
    norm_num [warpTileStep, writeTile, sliceTensor, sliceDef, tiledDemoImage,
      tiledDemoField, imageToTensor, deformationToTensor, createSamplingGrid,
      gridSampler, nearestSample, roundHalfEven, unnormalize, linspace,
      padGet, clampByte, h255]

/-- C4 witness: the zero-field equivalence instantiated on the 2×2 all-255
image with 1×1 tiles, at pixel `(0, 0)`. -/
theorem C4_tiled_equals_direct_zero_field_witness :
    (warpImageTiled flatDemoImage (zeroField 2 2) tiledDemoCfg).pix 0 0 0
        = (warpImageDirect flatDemoImage (zeroField 2 2) "bilinear").pix 0 0 0
      ∧ (warpImageTiled flatDemoImage (zeroField 2 2) tiledDemoCfg).pix 0 0 0
        = 255 := by
  have h := C4_tiled_equals_direct_zero_field flatDemoImage tiledDemoCfg
    (fun _ _ _ => le_refl 255) (by decide) (by decide) (by decide) 0 0 0
    (by decide) (by decide) (by decide)
  exact ⟨h.1, h.2⟩

end Alinify
